import Mathlib

/-!
# Verification of the four-in-a-row Board Engine of shuttlings-cch24

Shallow embedding of the board-game component of `src/main.rs`:
the 4x4 `Board` (column-major `board[col][row]`, matching the Rust
`self.board[j][i]` access pattern where `i` is the display row),
`check_winner`, `is_draw`, `show_result`, `generate_random`, and the
four handlers `get_board`, `reset_board`, `place_piece`, `random_board`
together with the shared application state (live board + StdRng).
-/

namespace CCH24

/-- The two players, `Team` in the source. -/
inductive Team where
  | Cookie
  | Milk
deriving DecidableEq, Repr, Fintype

/-- A cell is empty (`None`) or holds a team, `Option<Team>` in the source. -/
abbrev Cell := Option Team

/-- The live 4x4 grid, `struct Board { board: [[Option<Team>; 4]; 4] }`.
First index is the Rust outer index `j` (display column), second is `i`
(display row, row 0 at the top, row 3 at the bottom). -/
structure Board where
  board : Fin 4 → Fin 4 → Cell

instance : DecidableEq Board := fun a b =>
  decidable_of_iff (a.board = b.board) (by cases a; cases b; simp)

/-- `Board::default()`: every cell empty. -/
def Board.empty : Board := ⟨fun _ _ => none⟩

instance : Inhabited Board := ⟨Board.empty⟩

/-- Marker used by `Display for Board` for one cell. -/
def cellStr : Cell → String
  | some Team.Cookie => "🍪"
  | some Team.Milk => "🥛"
  | none => "⬛"

/-- Marker for a team, as used in the `wins!` suffixes. -/
def teamStr : Team → String
  | Team.Cookie => "🍪"
  | Team.Milk => "🥛"

/-- One output line of `Display for Board`: border, the four cells
`board[j][i]` for `j = 0..4` at display row `i`, border, newline. -/
def rowString (b : Board) (i : Fin 4) : String :=
  "⬜" ++ cellStr (b.board 0 i) ++ cellStr (b.board 1 i) ++ cellStr (b.board 2 i)
    ++ cellStr (b.board 3 i) ++ "⬜\n"

/-- `Display for Board`: four rows top to bottom, then the bottom border. -/
def Board.render (b : Board) : String :=
  rowString b 0 ++ rowString b 1 ++ rowString b 2 ++ rowString b 3 ++ "⬜⬜⬜⬜⬜⬜\n"

/-- One `if let Some(team) = first { if rest all equal ... }` check of
`check_winner`, for the four positions of one candidate line. -/
def lineWinner (b : Board) (L : List (Fin 4 × Fin 4)) : Option Team :=
  match L.map (fun p => b.board p.1 p.2) with
  | [some t, c1, c2, c3] =>
      if c1 = some t ∧ c2 = some t ∧ c3 = some t then some t else none
  | _ => none

/-- The candidate lines in the exact order `check_winner` tests them: for
each `i` in `0..4` first `board[i][0..4]` (display column `i`) then
`board[0..4][i]` (display row `i`), then the two diagonals. -/
def checkOrder : List (List (Fin 4 × Fin 4)) :=
  [ [(0, 0), (0, 1), (0, 2), (0, 3)], [(0, 0), (1, 0), (2, 0), (3, 0)],
    [(1, 0), (1, 1), (1, 2), (1, 3)], [(0, 1), (1, 1), (2, 1), (3, 1)],
    [(2, 0), (2, 1), (2, 2), (2, 3)], [(0, 2), (1, 2), (2, 2), (3, 2)],
    [(3, 0), (3, 1), (3, 2), (3, 3)], [(0, 3), (1, 3), (2, 3), (3, 3)],
    [(0, 0), (1, 1), (2, 2), (3, 3)], [(0, 3), (1, 2), (2, 1), (3, 0)] ]

/-- `Board::check_winner`: the first line whose four cells carry one team,
in source order; `None` when no such line exists. -/
def Board.check_winner (b : Board) : Option Team :=
  checkOrder.findSome? (lineWinner b)

/-- The sixteen coordinates, for the full-board test of `is_draw`. -/
def allCellsList : List (Fin 4 × Fin 4) :=
  [ (0, 0), (0, 1), (0, 2), (0, 3), (1, 0), (1, 1), (1, 2), (1, 3),
    (2, 0), (2, 1), (2, 2), (2, 3), (3, 0), (3, 1), (3, 2), (3, 3) ]

/-- `Board::is_draw`: every cell occupied and no winner. -/
def Board.is_draw (b : Board) : Bool :=
  (allCellsList.all fun p => (b.board p.1 p.2).isSome) && b.check_winner.isNone

/-- `Board::show_result`: `Some` of the render plus a suffix line when the
board is terminal (won or drawn), `None` while the game is in progress. -/
def Board.show_result (b : Board) : Option String :=
  match b.check_winner with
  | some w => some (b.render ++ teamStr w ++ " wins!\n")
  | none => if b.is_draw then some (b.render ++ "No winner.\n") else none

/-- The derived game outcome of the spec: `InProgress`, `Won`, or `Draw`,
computed freshly from the grid exactly as `show_result` branches. -/
inductive Outcome where
  | InProgress
  | Won (t : Team)
  | Draw
deriving DecidableEq, Repr

/-- Outcome of a grid: winner first, then draw, else in progress. -/
def Board.outcome (b : Board) : Outcome :=
  match b.check_winner with
  | some w => Outcome.Won w
  | none => if b.is_draw then Outcome.Draw else Outcome.InProgress

/-- Write one cell of the grid, leaving the other fifteen untouched
(the Rust assignment `board.board[c][r] = v`). -/
def setCell (b : Board) (c r : Fin 4) (v : Cell) : Board :=
  ⟨fun c2 r2 => if c2 = c ∧ r2 = r then v else b.board c2 r2⟩

/-- Modelled from the spec: the deterministic Random Source.  The source
system uses `rand::rngs::StdRng`, a library generator external to this
repository whose algorithm the spec leaves unprescribed ("any standard
deterministic PRNG suffices ... it must accept an explicit 64-bit seed and
produce a repeatable sequence from that seed").  We model its state as the
seed together with the number of draws consumed so far; each draw is a
deterministic mixing function of seed and draw index. -/
structure StdRng where
  seed : Nat
  count : Nat
deriving DecidableEq, Repr

/-- Modelled from the spec: one deterministic pseudo-random bit, a pure
function of the seed and the index of the draw. -/
def rngBit (seed idx : Nat) : Bool :=
  (seed * 6364136223846793005 + idx * 1442695040888963407) % 2 ^ 64 % 3 = 1

/-- `StdRng::seed_from_u64`: fresh generator state from a seed. -/
def StdRng.seed_from_u64 (s : Nat) : StdRng := ⟨s, 0⟩

/-- `rng.gen::<bool>()`: one boolean draw, advancing the state. -/
def StdRng.gen_bool (r : StdRng) : Bool × StdRng :=
  (rngBit r.seed r.count, ⟨r.seed, r.count + 1⟩)

/-- `Board::generate_random`: fill a fresh grid cell by cell, rows outer
and columns inner (`board[j][i]` for `i` in `0..4`, `j` in `0..4`), one
boolean draw per cell, `true` giving `Cookie` and `false` giving `Milk`. -/
def Board.generate_random (rng : StdRng) : Board × StdRng :=
  (([0, 1, 2, 3] : List (Fin 4)).foldl
    (fun acc i => (([0, 1, 2, 3] : List (Fin 4)).foldl
      (fun acc2 j =>
        let d := acc2.2.gen_bool
        (setCell acc2.1 j i (some (if d.1 then Team.Cookie else Team.Milk)), d.2))
      acc))
    (Board.empty, rng))

/-- The HTTP status codes the four board handlers can return. -/
inductive StatusCode where
  | OK
  | BAD_REQUEST
  | SERVICE_UNAVAILABLE
deriving DecidableEq, Repr

/-- The shared application state reachable from the handlers: the live
board and the random generator, each behind its own mutex in the source. -/
structure AppState where
  board : Board
  rng : StdRng
deriving DecidableEq

/-- The state built in `main`: default board, `StdRng::seed_from_u64(2024)`. -/
def initialState : AppState := ⟨Board.empty, StdRng.seed_from_u64 2024⟩

/-- `get_board`: render the live board, with the terminal suffix when the
game is over, plain otherwise; a pure read. -/
def get_board (s : AppState) : (StatusCode × String) × AppState :=
  match s.board.show_result with
  | some r => ((StatusCode.OK, r), s)
  | none => ((StatusCode.OK, s.board.render), s)

/-- `reset_board`: clear the board to default, reseed the generator to
2024, and return the render of the fresh empty board. -/
def reset_board (_s : AppState) : (StatusCode × String) × AppState :=
  ((StatusCode.OK, Board.empty.render), ⟨Board.empty, StdRng.seed_from_u64 2024⟩)

/-- The row search of `place_piece`: `for row in (0..4).rev()`, the first
empty row scanning from the bottom (row 3) upward. -/
def lowestEmptyRow (b : Board) (c : Fin 4) : Option (Fin 4) :=
  if b.board c 3 = none then some 3
  else if b.board c 2 = none then some 2
  else if b.board c 1 = none then some 1
  else if b.board c 0 = none then some 0
  else none

/-- The internal 0-based column index `column - 1` of the Rust code.  The
`% 4` keeps the function total; behind the range guard of `place_piece`
the column lies in `1..=4`, where `(column - 1) % 4 = column - 1`. -/
def columnIndex (column : Nat) : Fin 4 :=
  ⟨(column - 1) % 4, Nat.mod_lt _ (by omega)⟩

/-- `place_piece`: reject a column outside `1..=4`; reject with the
terminal render when the game is over; otherwise drop the piece into the
lowest empty row of the column, returning the new render (with suffix when
the move ends the game), or reject with the plain render when the column
is full.  Rejection never mutates the state. -/
def place_piece (s : AppState) (team : Team) (column : Nat) :
    (StatusCode × String) × AppState :=
  if column < 1 ∨ 4 < column then
    ((StatusCode.BAD_REQUEST, "Invalid column"), s)
  else
    match s.board.show_result with
    | some r => ((StatusCode.SERVICE_UNAVAILABLE, r), s)
    | none =>
      match lowestEmptyRow s.board (columnIndex column) with
      | some row =>
        let b2 := setCell s.board (columnIndex column) row (some team)
        match b2.show_result with
        | some r => ((StatusCode.OK, r), ⟨b2, s.rng⟩)
        | none => ((StatusCode.OK, b2.render), ⟨b2, s.rng⟩)
      | none => ((StatusCode.SERVICE_UNAVAILABLE, s.board.render), s)

/-- `random_board`: draw an ephemeral grid from the generator, and return
its render suffixed with the winner line, or with `No winner.` on a draw,
or plain otherwise; the live board is untouched. -/
def random_board (s : AppState) : (StatusCode × String) × AppState :=
  let br := Board.generate_random s.rng
  let result := br.1.render
  match br.1.check_winner with
  | some w =>
      ((StatusCode.OK, result ++ teamStr w ++ " wins!"), ⟨s.board, br.2⟩)
  | none =>
      if br.1.is_draw then ((StatusCode.OK, result ++ "No winner."), ⟨s.board, br.2⟩)
      else ((StatusCode.OK, result), ⟨s.board, br.2⟩)

/-- Run a sequence of placement calls, threading the state. -/
def placeSeq (s : AppState) (moves : List (Team × Nat)) : AppState :=
  moves.foldl (fun st m => (place_piece st m.1 m.2).2) s

/-- The observable response of the column-full failure branch of
`place_piece`: service unavailable with the plain render of the untouched
board. -/
def columnFullResponse (b : Board) : StatusCode × String :=
  (StatusCode.SERVICE_UNAVAILABLE, b.render)

/-! ## Spec-side notions used to state the claims -/

/-- The ten winning lines of the spec, as sets of coordinates: the four
display rows, the four display columns, and the two main diagonals. -/
def linesList : List (List (Fin 4 × Fin 4)) :=
  [ [(0, 0), (1, 0), (2, 0), (3, 0)], [(0, 1), (1, 1), (2, 1), (3, 1)],
    [(0, 2), (1, 2), (2, 2), (3, 2)], [(0, 3), (1, 3), (2, 3), (3, 3)],
    [(0, 0), (0, 1), (0, 2), (0, 3)], [(1, 0), (1, 1), (1, 2), (1, 3)],
    [(2, 0), (2, 1), (2, 2), (2, 3)], [(3, 0), (3, 1), (3, 2), (3, 3)],
    [(0, 0), (1, 1), (2, 2), (3, 3)], [(0, 3), (1, 2), (2, 1), (3, 0)] ]

/-- Team `t` has a winning line on `b`: all four cells of some row, column
or main diagonal hold `t`. -/
def hasLine (b : Board) (t : Team) : Prop :=
  ∃ L ∈ linesList, ∀ p ∈ L, b.board p.1 p.2 = some t

instance (b : Board) (t : Team) : Decidable (hasLine b t) := by
  unfold hasLine; infer_instance

/-- Every one of the sixteen cells is occupied. -/
def allOccupied (b : Board) : Prop :=
  ∀ c r : Fin 4, (b.board c r).isSome

instance (b : Board) : Decidable (allOccupied b) := by
  unfold allOccupied; infer_instance

/-- The opponent of a team. -/
def otherTeam : Team → Team
  | Team.Cookie => Team.Milk
  | Team.Milk => Team.Cookie

/-- The board whose cells along `L` hold `t` and whose other cells are
empty. -/
def boardWithLine (L : List (Fin 4 × Fin 4)) (t : Team) : Board :=
  ⟨fun c r => if (c, r) ∈ L then some t else none⟩

/-- The response string of a successful placement: the new render with the
terminal suffix when the move ended the game, plain otherwise. -/
def successResponse (b : Board) : String :=
  match b.show_result with
  | some r => r
  | none => b.render

/-- Column `c` of `b` holds pieces in exactly its bottom `k` rows
(display rows `4 - k` and below) and nowhere else. -/
def occupiedBottomRows (b : Board) (c : Fin 4) (k : Nat) : Prop :=
  ∀ r : Fin 4, (b.board c r ≠ none ↔ 4 - k ≤ r.val)

/-- Column `c` of `b` is completely occupied. -/
def columnFull (b : Board) (c : Fin 4) : Prop :=
  ∀ r : Fin 4, (b.board c r).isSome

instance (b : Board) (c : Fin 4) : Decidable (columnFull b c) := by
  unfold columnFull; infer_instance

instance (b : Board) (c : Fin 4) (k : Nat) : Decidable (occupiedBottomRows b c k) := by
  unfold occupiedBottomRows; infer_instance

/-- A grid holding a full Cookie column next to a full Milk column: both
teams own a complete line here. -/
def twoLinesBoard : Board :=
  ⟨fun c _ => if c = 0 then some Team.Cookie
    else if c = 1 then some Team.Milk else none⟩

/-- A full grid with no line of four: `Won` is impossible, so it draws. -/
def fullDrawBoard : Board :=
  ⟨fun c r =>
    if (c.val / 2 + r.val) % 2 = 0 then some Team.Cookie else some Team.Milk⟩

/-- A terminal live board: column 0 filled with Cookie. -/
def wonBoard : Board :=
  ⟨fun c _ => if c = 0 then some Team.Cookie else none⟩

/-- An in-progress board whose column 0 is full (alternating teams). -/
def colFullBoard : Board :=
  ⟨fun c r =>
    if c = 0 then some (if r.val % 2 = 0 then Team.Cookie else Team.Milk) else none⟩

/-- The all-Cookie grid: full, with (many) winning lines. -/
def allCookieBoard : Board := ⟨fun _ _ => some Team.Cookie⟩

/-- The state after four Cookie placements into column 1 from a fresh
start: a vertical Cookie line, outcome `Won Cookie`. -/
def cookies4State : AppState :=
  placeSeq initialState
    [(Team.Cookie, 1), (Team.Cookie, 1), (Team.Cookie, 1), (Team.Cookie, 1)]

/-! ## Basic lemmas about the grid primitives -/

theorem setCell_same (b : Board) (c r : Fin 4) (v : Cell) :
    (setCell b c r v).board c r = v := by
  simp [setCell]

theorem setCell_other (b : Board) (c r : Fin 4) (v : Cell) (c2 r2 : Fin 4)
    (h : ¬(c2 = c ∧ r2 = r)) : (setCell b c r v).board c2 r2 = b.board c2 r2 := by
  simp only [setCell, if_neg h]

theorem lineWinner_quad (b : Board) (p0 p1 p2 p3 : Fin 4 × Fin 4) (t : Team) :
    lineWinner b [p0, p1, p2, p3] = some t ↔
      b.board p0.1 p0.2 = some t ∧ b.board p1.1 p1.2 = some t ∧
        b.board p2.1 p2.2 = some t ∧ b.board p3.1 p3.2 = some t := by
  unfold lineWinner
  simp only [List.map_cons, List.map_nil]
  cases h0 : b.board p0.1 p0.2 with
  | none => simp
  | some t0 =>
    show (if b.board p1.1 p1.2 = some t0 ∧ b.board p2.1 p2.2 = some t0 ∧
          b.board p3.1 p3.2 = some t0 then some t0 else none) = some t ↔
        some t0 = some t ∧ b.board p1.1 p1.2 = some t ∧ b.board p2.1 p2.2 = some t ∧
          b.board p3.1 p3.2 = some t
    split_ifs with hc
    · constructor
      · intro he
        injection he with he
        subst he
        exact ⟨rfl, hc.1, hc.2.1, hc.2.2⟩
      · intro he
        exact he.1
    · constructor
      · intro he
        simp at he
      · rintro ⟨ha, h1, h2, h3⟩
        injection ha with ha
        subst ha
        exact absurd ⟨h1, h2, h3⟩ hc

theorem lineWinner_of_forall {b : Board} {t : Team} (p0 p1 p2 p3 : Fin 4 × Fin 4)
    (hall : ∀ p ∈ [p0, p1, p2, p3], b.board p.1 p.2 = some t) :
    lineWinner b [p0, p1, p2, p3] = some t := by
  rw [lineWinner_quad]
  exact ⟨hall p0 (by simp), hall p1 (by simp), hall p2 (by simp), hall p3 (by simp)⟩

theorem hasLine_of_lineWinner {b : Board} {t : Team} (p0 p1 p2 p3 : Fin 4 × Fin 4)
    (hmem : [p0, p1, p2, p3] ∈ linesList)
    (hf : lineWinner b [p0, p1, p2, p3] = some t) : hasLine b t := by
  rw [lineWinner_quad] at hf
  refine ⟨[p0, p1, p2, p3], hmem, ?_⟩
  intro p hp
  rcases List.mem_cons.mp hp with rfl | hp
  · exact hf.1
  rcases List.mem_cons.mp hp with rfl | hp
  · exact hf.2.1
  rcases List.mem_cons.mp hp with rfl | hp
  · exact hf.2.2.1
  rcases List.mem_cons.mp hp with rfl | hp
  · exact hf.2.2.2
  cases hp

/-- Soundness of `check_winner`: a reported winner really has a line. -/
theorem check_winner_sound {b : Board} {t : Team} (h : b.check_winner = some t) :
    hasLine b t := by
  obtain ⟨L, hL, hf⟩ := List.exists_of_findSome?_eq_some h
  fin_cases hL <;> exact hasLine_of_lineWinner _ _ _ _ (by decide) hf

/-- Completeness of `check_winner`: a line never goes unreported. -/
theorem check_winner_complete {b : Board} {t : Team} (h : hasLine b t) :
    (b.check_winner).isSome := by
  obtain ⟨L, hL, hall⟩ := h
  rw [Option.isSome_iff_ne_none]
  intro hn
  unfold Board.check_winner at hn
  have hz := List.findSome?_eq_none_iff.mp hn
  fin_cases hL <;>
    exact Option.noConfusion
      ((hz _ (by decide)).symm.trans (lineWinner_of_forall _ _ _ _ hall))

theorem check_winner_eq_none_iff (b : Board) :
    b.check_winner = none ↔ ∀ t, ¬ hasLine b t := by
  constructor
  · intro hn t hl
    have h2 := check_winner_complete hl
    rw [hn] at h2
    simp at h2
  · intro h
    cases hw : b.check_winner with
    | none => rfl
    | some t => exact absurd (check_winner_sound hw) (h t)

theorem mem_allCellsList : ∀ c r : Fin 4, (c, r) ∈ allCellsList := by decide

theorem is_draw_iff (b : Board) :
    b.is_draw = true ↔ allOccupied b ∧ b.check_winner = none := by
  unfold Board.is_draw
  rw [Bool.and_eq_true, List.all_eq_true, Option.isNone_iff_eq_none]
  constructor
  · rintro ⟨h1, h2⟩
    exact ⟨fun c r => by simpa using h1 (c, r) (mem_allCellsList c r), h2⟩
  · rintro ⟨h1, h2⟩
    exact ⟨fun p _ => by simpa using h1 p.1 p.2, h2⟩

theorem show_result_eq_none_iff (b : Board) :
    b.show_result = none ↔ b.outcome = Outcome.InProgress := by
  unfold Board.show_result Board.outcome
  cases h : b.check_winner with
  | some w => simp
  | none =>
    cases hd : b.is_draw with
    | true => simp
    | false => simp

theorem outcome_Draw_iff (b : Board) :
    b.outcome = Outcome.Draw ↔ b.check_winner = none ∧ b.is_draw = true := by
  unfold Board.outcome
  cases h : b.check_winner with
  | some w => simp
  | none =>
    cases hd : b.is_draw with
    | true => simp
    | false => simp

theorem outcome_Won_iff (b : Board) (t : Team) :
    b.outcome = Outcome.Won t ↔ b.check_winner = some t := by
  unfold Board.outcome
  cases h : b.check_winner with
  | some w => simp
  | none =>
    cases hd : b.is_draw with
    | true => simp
    | false => simp

/-! ## Lemmas about the handlers -/

theorem show_result_terminal {b : Board} (h : b.outcome ≠ Outcome.InProgress) :
    ∃ r, b.show_result = some r := by
  cases hr : b.show_result with
  | some r => exact ⟨r, rfl⟩
  | none => exact absurd ((show_result_eq_none_iff b).mp hr) h

theorem place_piece_out_of_range (s : AppState) (t : Team) {column : Nat}
    (h : column < 1 ∨ 4 < column) :
    place_piece s t column = ((StatusCode.BAD_REQUEST, "Invalid column"), s) := by
  unfold place_piece
  rw [if_pos h]

theorem place_piece_gameOver {s : AppState} (t : Team) {column : Nat} {r : String}
    (hcol : ¬(column < 1 ∨ 4 < column)) (hr : s.board.show_result = some r) :
    place_piece s t column = ((StatusCode.SERVICE_UNAVAILABLE, r), s) := by
  unfold place_piece
  rw [if_neg hcol, hr]

theorem place_piece_terminal_unchanged (s : AppState) (t : Team) (column : Nat)
    (h : s.board.outcome ≠ Outcome.InProgress) :
    (place_piece s t column).2 = s := by
  by_cases hcol : column < 1 ∨ 4 < column
  · rw [place_piece_out_of_range s t hcol]
  · obtain ⟨r, hr⟩ := show_result_terminal h
    rw [place_piece_gameOver t hcol hr]

theorem lowestEmptyRow_spec {b : Board} {c : Fin 4} {row : Fin 4}
    (h : lowestEmptyRow b c = some row) :
    b.board c row = none ∧ ∀ r2 : Fin 4, row < r2 → b.board c r2 ≠ none := by
  unfold lowestEmptyRow at h
  split_ifs at h with h3 h2 h1 h0
  · injection h with h
    subst h
    refine ⟨h3, ?_⟩
    intro r2 hr2
    fin_cases r2 <;> exact absurd hr2 (by decide)
  · injection h with h
    subst h
    refine ⟨h2, ?_⟩
    intro r2 hr2
    fin_cases r2
    · exact absurd hr2 (by decide)
    · exact absurd hr2 (by decide)
    · exact absurd hr2 (by decide)
    · exact h3
  · injection h with h
    subst h
    refine ⟨h1, ?_⟩
    intro r2 hr2
    fin_cases r2
    · exact absurd hr2 (by decide)
    · exact absurd hr2 (by decide)
    · exact h2
    · exact h3
  · injection h with h
    subst h
    refine ⟨h0, ?_⟩
    intro r2 hr2
    fin_cases r2
    · exact absurd hr2 (by decide)
    · exact h1
    · exact h2
    · exact h3

theorem lowestEmptyRow_eq_none_iff (b : Board) (c : Fin 4) :
    lowestEmptyRow b c = none ↔ columnFull b c := by
  unfold lowestEmptyRow columnFull
  constructor
  · intro h r
    split_ifs at h with h3 h2 h1 h0
    rw [Option.isSome_iff_ne_none]
    fin_cases r
    · exact h0
    · exact h1
    · exact h2
    · exact h3
  · intro h
    have h3 := h 3
    have h2 := h 2
    have h1 := h 1
    have h0 := h 0
    rw [Option.isSome_iff_ne_none] at h3 h2 h1 h0
    rw [if_neg h3, if_neg h2, if_neg h1, if_neg h0]

theorem lowestEmptyRow_isSome {b : Board} {c : Fin 4} {r : Fin 4}
    (h : b.board c r = none) : ∃ row, lowestEmptyRow b c = some row := by
  cases hl : lowestEmptyRow b c with
  | some row => exact ⟨row, rfl⟩
  | none =>
    have h2 := (lowestEmptyRow_eq_none_iff b c).mp hl r
    rw [h] at h2
    simp at h2

theorem place_piece_success {s : AppState} (t : Team) {column : Nat}
    (hcol : ¬(column < 1 ∨ 4 < column)) (hr : s.board.show_result = none)
    {row : Fin 4} (hlow : lowestEmptyRow s.board (columnIndex column) = some row) :
    place_piece s t column =
      ((StatusCode.OK,
          successResponse (setCell s.board (columnIndex column) row (some t))),
        ⟨setCell s.board (columnIndex column) row (some t), s.rng⟩) := by
  unfold place_piece successResponse
  simp only [if_neg hcol, hr, hlow]
  cases hsr : (setCell s.board (columnIndex column) row (some t)).show_result with
  | some r2 => simp only [hsr]
  | none => simp only [hsr]

theorem place_piece_columnFull {s : AppState} (t : Team) {column : Nat}
    (hcol : ¬(column < 1 ∨ 4 < column)) (hr : s.board.show_result = none)
    (hfull : lowestEmptyRow s.board (columnIndex column) = none) :
    place_piece s t column =
      ((StatusCode.SERVICE_UNAVAILABLE, s.board.render), s) := by
  unfold place_piece
  rw [if_neg hcol, hr, hfull]

/-! ## Lemmas about the random snapshot -/

theorem generate_random_rng (rng : StdRng) :
    (Board.generate_random rng).2 = ⟨rng.seed, rng.count + 16⟩ := by
  cases rng with
  | mk sd ct =>
    simp [Board.generate_random, StdRng.gen_bool]

set_option maxHeartbeats 2000000 in
/-- Each cell of the random grid comes from one boolean draw, in row-major
order: cell `(c, r)` uses draw number `4 * r + c` past the initial state,
`true` giving Cookie and `false` giving Milk. -/
theorem generate_random_cell (rng : StdRng) (c r : Fin 4) :
    (Board.generate_random rng).1.board c r =
      some (if rngBit rng.seed (rng.count + (4 * r.val + c.val)) then Team.Cookie
        else Team.Milk) := by
  have h00 : (Board.generate_random rng).1.board 0 0 =
      some (if rngBit rng.seed (rng.count + 0) then Team.Cookie
        else Team.Milk) := by
    cases rng with
    | mk sd ct => simp [Board.generate_random, StdRng.gen_bool, setCell]
  have h01 : (Board.generate_random rng).1.board 0 1 =
      some (if rngBit rng.seed (rng.count + 4) then Team.Cookie
        else Team.Milk) := by
    cases rng with
    | mk sd ct => simp [Board.generate_random, StdRng.gen_bool, setCell]
  have h02 : (Board.generate_random rng).1.board 0 2 =
      some (if rngBit rng.seed (rng.count + 8) then Team.Cookie
        else Team.Milk) := by
    cases rng with
    | mk sd ct => simp [Board.generate_random, StdRng.gen_bool, setCell]
  have h03 : (Board.generate_random rng).1.board 0 3 =
      some (if rngBit rng.seed (rng.count + 12) then Team.Cookie
        else Team.Milk) := by
    cases rng with
    | mk sd ct => simp [Board.generate_random, StdRng.gen_bool, setCell]
  have h10 : (Board.generate_random rng).1.board 1 0 =
      some (if rngBit rng.seed (rng.count + 1) then Team.Cookie
        else Team.Milk) := by
    cases rng with
    | mk sd ct => simp [Board.generate_random, StdRng.gen_bool, setCell]
  have h11 : (Board.generate_random rng).1.board 1 1 =
      some (if rngBit rng.seed (rng.count + 5) then Team.Cookie
        else Team.Milk) := by
    cases rng with
    | mk sd ct => simp [Board.generate_random, StdRng.gen_bool, setCell]
  have h12 : (Board.generate_random rng).1.board 1 2 =
      some (if rngBit rng.seed (rng.count + 9) then Team.Cookie
        else Team.Milk) := by
    cases rng with
    | mk sd ct => simp [Board.generate_random, StdRng.gen_bool, setCell]
  have h13 : (Board.generate_random rng).1.board 1 3 =
      some (if rngBit rng.seed (rng.count + 13) then Team.Cookie
        else Team.Milk) := by
    cases rng with
    | mk sd ct => simp [Board.generate_random, StdRng.gen_bool, setCell]
  have h20 : (Board.generate_random rng).1.board 2 0 =
      some (if rngBit rng.seed (rng.count + 2) then Team.Cookie
        else Team.Milk) := by
    cases rng with
    | mk sd ct => simp [Board.generate_random, StdRng.gen_bool, setCell]
  have h21 : (Board.generate_random rng).1.board 2 1 =
      some (if rngBit rng.seed (rng.count + 6) then Team.Cookie
        else Team.Milk) := by
    cases rng with
    | mk sd ct => simp [Board.generate_random, StdRng.gen_bool, setCell]
  have h22 : (Board.generate_random rng).1.board 2 2 =
      some (if rngBit rng.seed (rng.count + 10) then Team.Cookie
        else Team.Milk) := by
    cases rng with
    | mk sd ct => simp [Board.generate_random, StdRng.gen_bool, setCell]
  have h23 : (Board.generate_random rng).1.board 2 3 =
      some (if rngBit rng.seed (rng.count + 14) then Team.Cookie
        else Team.Milk) := by
    cases rng with
    | mk sd ct => simp [Board.generate_random, StdRng.gen_bool, setCell]
  have h30 : (Board.generate_random rng).1.board 3 0 =
      some (if rngBit rng.seed (rng.count + 3) then Team.Cookie
        else Team.Milk) := by
    cases rng with
    | mk sd ct => simp [Board.generate_random, StdRng.gen_bool, setCell]
  have h31 : (Board.generate_random rng).1.board 3 1 =
      some (if rngBit rng.seed (rng.count + 7) then Team.Cookie
        else Team.Milk) := by
    cases rng with
    | mk sd ct => simp [Board.generate_random, StdRng.gen_bool, setCell]
  have h32 : (Board.generate_random rng).1.board 3 2 =
      some (if rngBit rng.seed (rng.count + 11) then Team.Cookie
        else Team.Milk) := by
    cases rng with
    | mk sd ct => simp [Board.generate_random, StdRng.gen_bool, setCell]
  have h33 : (Board.generate_random rng).1.board 3 3 =
      some (if rngBit rng.seed (rng.count + 15) then Team.Cookie
        else Team.Milk) := by
    cases rng with
    | mk sd ct => simp [Board.generate_random, StdRng.gen_bool, setCell]
  fin_cases c <;> fin_cases r
  exacts [h00, h01, h02, h03, h10, h11, h12, h13, h20, h21, h22, h23, h30, h31, h32, h33]

theorem generate_random_occupied (rng : StdRng) :
    allOccupied (Board.generate_random rng).1 := by
  intro c r
  rw [generate_random_cell]
  rfl

theorem successResponse_spec (b : Board) :
    (b.outcome = Outcome.InProgress → successResponse b = b.render) ∧
      (b.outcome ≠ Outcome.InProgress →
        ∃ rr, b.show_result = some rr ∧ successResponse b = rr) := by
  unfold successResponse
  constructor
  · intro h
    rw [(show_result_eq_none_iff b).mpr h]
  · intro h
    obtain ⟨rr, hrr⟩ := show_result_terminal h
    rw [hrr]
    exact ⟨rr, rfl, rfl⟩

/-! ## The claims -/

/-- C7: for a column outside `1..=4`, `place` fails with the
`InvalidColumn` validation error, leaves the state — and so the rendering —
untouched, and its response does not depend on the board at all. -/
theorem invalid_column_rejection (s : AppState) (team : Team) (column : Nat)
    (h : column < 1 ∨ 4 < column) :
    place_piece s team column = ((StatusCode.BAD_REQUEST, "Invalid column"), s) ∧
      ∀ s2 : AppState, (place_piece s2 team column).1 = (place_piece s team column).1 := by
  refine ⟨place_piece_out_of_range s team h, ?_⟩
  intro s2
  rw [place_piece_out_of_range s team h, place_piece_out_of_range s2 team h]

theorem invalid_column_rejection_witness :
    place_piece initialState Team.Cookie 5 =
      ((StatusCode.BAD_REQUEST, "Invalid column"), initialState) :=
  (invalid_column_rejection initialState Team.Cookie 5 (by decide)).1

/-- C5: reset always succeeds, returns the rendered empty board, clears
all sixteen cells, reseeds the generator to the constant 2024 — the exact
state of a fresh process start — and a second reset in a row returns the
same rendering and state. -/
theorem reset_spec (s : AppState) :
    reset_board s = ((StatusCode.OK, Board.empty.render), initialState) ∧
      (∀ c r : Fin 4, (reset_board s).2.board.board c r = none) ∧
      (reset_board s).2.rng = StdRng.seed_from_u64 2024 ∧
      (reset_board s).2 = initialState ∧
      reset_board (reset_board s).2 = reset_board s :=
  ⟨rfl, fun _ _ => rfl, rfl, rfl, rfl⟩

/-- C2: on a terminal board (`Won` or `Draw`), `place` with any in-range
column fails with the `GameOver` conflict error whose payload is the
current terminal rendering (what `get_board` returns), leaves the state
unchanged, and the board stays unchanged under every further sequence of
`place` calls. -/
theorem game_over_rejection (s : AppState) (team : Team) (column : Nat)
    (hcol : 1 ≤ column ∧ column ≤ 4)
    (hterm : s.board.outcome ≠ Outcome.InProgress) :
    (∃ r, s.board.show_result = some r ∧ (get_board s).1.2 = r ∧
      place_piece s team column = ((StatusCode.SERVICE_UNAVAILABLE, r), s)) ∧
      ∀ moves : List (Team × Nat), placeSeq s moves = s := by
  obtain ⟨r, hr⟩ := show_result_terminal hterm
  constructor
  · refine ⟨r, hr, ?_, ?_⟩
    · unfold get_board
      rw [hr]
    · exact place_piece_gameOver team (by omega) hr
  · intro moves
    induction moves with
    | nil => rfl
    | cons m rest ih =>
      show placeSeq (place_piece s m.1 m.2).2 rest = s
      rw [place_piece_terminal_unchanged s m.1 m.2 hterm]
      exact ih

theorem game_over_rejection_witness :
    placeSeq ⟨wonBoard, StdRng.seed_from_u64 2024⟩ [(Team.Cookie, 1), (Team.Milk, 3)] =
      ⟨wonBoard, StdRng.seed_from_u64 2024⟩ :=
  (game_over_rejection ⟨wonBoard, StdRng.seed_from_u64 2024⟩ Team.Cookie 1
    (by decide) (by decide)).2 [(Team.Cookie, 1), (Team.Milk, 3)]

/-- C6: on an in-progress board whose target column is full, `place` with
an in-range column fails with the `ColumnFull` conflict error carrying the
current rendering (the plain render, which is exactly what `get_board`
returns while in progress) and performs no mutation. -/
theorem column_full_rejection (s : AppState) (team : Team) (column : Nat)
    (hcol : 1 ≤ column ∧ column ≤ 4)
    (hprog : s.board.outcome = Outcome.InProgress)
    (hfull : columnFull s.board (columnIndex column)) :
    place_piece s team column =
        ((StatusCode.SERVICE_UNAVAILABLE, s.board.render), s) ∧
      (get_board s).1.2 = s.board.render := by
  have hr : s.board.show_result = none := (show_result_eq_none_iff s.board).mpr hprog
  refine ⟨place_piece_columnFull team (by omega) hr
    ((lowestEmptyRow_eq_none_iff _ _).mpr hfull), ?_⟩
  unfold get_board
  rw [hr]

theorem column_full_rejection_witness :
    place_piece ⟨colFullBoard, StdRng.seed_from_u64 2024⟩ Team.Milk 1 =
      ((StatusCode.SERVICE_UNAVAILABLE, colFullBoard.render),
        ⟨colFullBoard, StdRng.seed_from_u64 2024⟩) :=
  (column_full_rejection ⟨colFullBoard, StdRng.seed_from_u64 2024⟩ Team.Milk 1
    (by decide) (by decide) (by decide)).1

/-- C4: a grid's outcome is `Draw` exactly when all sixteen cells are
occupied and no winning line exists; a full grid that does contain a
winning line reports `Won` and never `Draw`. -/
theorem draw_detection (b : Board) :
    (b.outcome = Outcome.Draw ↔ allOccupied b ∧ ∀ t, ¬ hasLine b t) ∧
      (allOccupied b → (∃ t, hasLine b t) →
        (∃ t, b.outcome = Outcome.Won t) ∧ b.outcome ≠ Outcome.Draw) := by
  constructor
  · rw [outcome_Draw_iff, is_draw_iff]
    constructor
    · rintro ⟨hn, hocc, _⟩
      exact ⟨hocc, (check_winner_eq_none_iff b).mp hn⟩
    · rintro ⟨hocc, hnl⟩
      have hn := (check_winner_eq_none_iff b).mpr hnl
      exact ⟨hn, hocc, hn⟩
  · rintro hocc ⟨t, ht⟩
    have h2 := check_winner_complete ht
    rw [Option.isSome_iff_exists] at h2
    obtain ⟨w, hw⟩ := h2
    have hwon := (outcome_Won_iff b w).mpr hw
    refine ⟨⟨w, hwon⟩, ?_⟩
    rw [hwon]
    exact fun hh => Outcome.noConfusion hh

/-- C3, counterexample: on the board holding a full Cookie column next to
a full Milk column, Milk owns a complete line yet win detection reports
Cookie (the first line in check order), so "reports a win for team t if
and only if t owns a line" fails in the only-if-to-if direction. -/
theorem win_detection_cex :
    hasLine twoLinesBoard Team.Milk ∧
      twoLinesBoard.check_winner = some Team.Cookie ∧
      twoLinesBoard.outcome ≠ Outcome.Won Team.Milk := by decide

set_option maxHeartbeats 1000000 in
/-- C3, amended: win detection is sound — a reported winner owns a line —
and reports some win exactly when some line exists (when both teams own
lines, the first line in check order decides which team is reported).  In
particular every single-line board reports `Won` of that line's team, and
flipping any one of the four line cells to the other team or to empty
returns the outcome to `InProgress`. -/
theorem win_detection_amended :
    (∀ (b : Board) (t : Team), b.check_winner = some t → hasLine b t) ∧
      (∀ b : Board, (∃ t, hasLine b t) ↔ (b.check_winner).isSome) ∧
      (∀ L ∈ linesList, ∀ t : Team,
        (boardWithLine L t).outcome = Outcome.Won t ∧
          ∀ p ∈ L,
            (setCell (boardWithLine L t) p.1 p.2 (some (otherTeam t))).outcome =
                Outcome.InProgress ∧
              (setCell (boardWithLine L t) p.1 p.2 none).outcome =
                Outcome.InProgress) := by
  refine ⟨fun b t h => check_winner_sound h, fun b => ?_, by decide⟩
  constructor
  · rintro ⟨t, ht⟩
    exact check_winner_complete ht
  · intro h
    rw [Option.isSome_iff_exists] at h
    obtain ⟨w, hw⟩ := h
    exact ⟨w, check_winner_sound hw⟩

theorem win_detection_amended_witness :
    hasLine wonBoard Team.Cookie ∧
      (boardWithLine [(0, 0), (0, 1), (0, 2), (0, 3)] Team.Cookie).outcome =
        Outcome.Won Team.Cookie :=
  ⟨win_detection_amended.1 wonBoard Team.Cookie (by decide),
    (win_detection_amended.2.2 [(0, 0), (0, 1), (0, 2), (0, 3)] (by decide)
      Team.Cookie).1⟩

theorem draw_detection_witness :
    fullDrawBoard.outcome = Outcome.Draw ∧
      (∃ t, allCookieBoard.outcome = Outcome.Won t) ∧
        allCookieBoard.outcome ≠ Outcome.Draw :=
  ⟨(draw_detection fullDrawBoard).1.mpr ⟨by decide, by decide⟩,
    (draw_detection allCookieBoard).2 (by decide) ⟨Team.Cookie, by decide⟩⟩

theorem random_board_state (s : AppState) :
    (random_board s).2 = ⟨s.board, (Board.generate_random s.rng).2⟩ := by
  unfold random_board
  cases h : (Board.generate_random s.rng).1.check_winner with
  | some w => simp [h]
  | none =>
    cases hd : (Board.generate_random s.rng).1.is_draw with
    | true => simp [h, hd]
    | false => simp [h, hd]

theorem random_board_response_board_independent (b2 : Board) (rng : StdRng) :
    (random_board ⟨b2, rng⟩).1 = (random_board ⟨Board.empty, rng⟩).1 := by
  unfold random_board
  cases h : (Board.generate_random rng).1.check_winner with
  | some w => simp [h]
  | none =>
    cases hd : (Board.generate_random rng).1.is_draw with
    | true => simp [h, hd]
    | false => simp [h, hd]

/-- C9: the random snapshot fills a separate ephemeral grid, one boolean
draw per cell in row-major order — `true` giving Cookie, `false` giving
Milk — consuming exactly 16 draws from the shared generator; it neither
mutates the live board (same board before and after) nor reads it (the
response is the same whatever the live board holds). -/
theorem random_snapshot_spec (s : AppState) :
    (random_board s).2.board = s.board ∧
      (random_board s).2.rng = ⟨s.rng.seed, s.rng.count + 16⟩ ∧
      (∀ c r : Fin 4, (Board.generate_random s.rng).1.board c r =
        some (if rngBit s.rng.seed (s.rng.count + (4 * r.val + c.val))
          then Team.Cookie else Team.Milk)) ∧
      ∀ b2 : Board, (random_board ⟨b2, s.rng⟩).1 = (random_board s).1 := by
  refine ⟨?_, ?_, fun c r => generate_random_cell s.rng c r, ?_⟩
  · rw [random_board_state]
  · rw [random_board_state]
    exact generate_random_rng s.rng
  · intro b2
    have h1 := random_board_response_board_independent b2 s.rng
    have h2 := random_board_response_board_independent s.board s.rng
    exact h1.trans h2.symm

/-- C10: the ephemeral grid is always completely occupied, so its outcome
is never `InProgress`, and the snapshot response always carries a terminal
suffix — the line naming the winner, or the neutral `No winner.` line —
never the plain board alone. -/
theorem random_snapshot_terminal (s : AppState) :
    allOccupied (Board.generate_random s.rng).1 ∧
      (Board.generate_random s.rng).1.outcome ≠ Outcome.InProgress ∧
      ((∃ w, (Board.generate_random s.rng).1.check_winner = some w ∧
          (random_board s).1.2 =
            (Board.generate_random s.rng).1.render ++ teamStr w ++ " wins!") ∨
        ((Board.generate_random s.rng).1.check_winner = none ∧
          (random_board s).1.2 =
            (Board.generate_random s.rng).1.render ++ "No winner.")) := by
  have hocc := generate_random_occupied s.rng
  refine ⟨hocc, ?_, ?_⟩
  · cases h : (Board.generate_random s.rng).1.check_winner with
    | some w =>
      intro hh
      rw [(outcome_Won_iff _ w).mpr h] at hh
      exact Outcome.noConfusion hh
    | none =>
      have hd : (Board.generate_random s.rng).1.is_draw = true :=
        (is_draw_iff _).mpr ⟨hocc, h⟩
      intro hh
      rw [(outcome_Draw_iff _).mpr ⟨h, hd⟩] at hh
      exact Outcome.noConfusion hh
  · cases h : (Board.generate_random s.rng).1.check_winner with
    | some w =>
      left
      refine ⟨w, rfl, ?_⟩
      unfold random_board
      simp [h]
    | none =>
      right
      have hd : (Board.generate_random s.rng).1.is_draw = true :=
        (is_draw_iff _).mpr ⟨hocc, h⟩
      refine ⟨rfl, ?_⟩
      unfold random_board
      simp [h, hd]

/-- C8, counterexample: with five Cookie placements into column 1 from a
fresh start, the fourth move completes a Cookie column and wins, so the
fifth is rejected by the game-over guard rather than the column-full
branch: its payload is the terminal render with the winner suffix, not the
plain render that the `ColumnFull` rejection carries. -/
theorem fifth_placement_cex :
    cookies4State.board.outcome = Outcome.Won Team.Cookie ∧
      columnFull cookies4State.board (columnIndex 1) ∧
      (place_piece cookies4State Team.Cookie 1).1 ≠
        columnFullResponse cookies4State.board ∧
      (place_piece cookies4State Team.Cookie 1).1 =
        (StatusCode.SERVICE_UNAVAILABLE,
          cookies4State.board.render ++ teamStr Team.Cookie ++ " wins!\n") := by
  decide

set_option maxHeartbeats 1000000 in
/-- C8, amended: from a freshly reset state, five placements into column 1
with any teams: the first four succeed, and the fifth is always rejected
with the conflict status and no mutation (so the rendering after the
failed call equals the rendering after the fourth).  The rejection is the
`ColumnFull` error — payload the plain current render — exactly when the
first four teams did not all match; when they all match the fourth move
already won the game and the fifth is rejected by the game-over guard,
with the terminal render as payload. -/
theorem fifth_placement_amended :
    (∀ s : AppState, (reset_board s).2 = initialState) ∧
      ∀ t1 t2 t3 t4 t5 : Team,
        (place_piece initialState t1 1).1.1 = StatusCode.OK ∧
        (place_piece (placeSeq initialState [(t1, 1)]) t2 1).1.1 = StatusCode.OK ∧
        (place_piece (placeSeq initialState [(t1, 1), (t2, 1)]) t3 1).1.1 =
          StatusCode.OK ∧
        (place_piece (placeSeq initialState [(t1, 1), (t2, 1), (t3, 1)]) t4 1).1.1 =
          StatusCode.OK ∧
        (place_piece (placeSeq initialState [(t1, 1), (t2, 1), (t3, 1), (t4, 1)])
            t5 1).1.1 = StatusCode.SERVICE_UNAVAILABLE ∧
        (place_piece (placeSeq initialState [(t1, 1), (t2, 1), (t3, 1), (t4, 1)])
            t5 1).2 = placeSeq initialState [(t1, 1), (t2, 1), (t3, 1), (t4, 1)] ∧
        (¬(t1 = t2 ∧ t2 = t3 ∧ t3 = t4) →
          (place_piece (placeSeq initialState [(t1, 1), (t2, 1), (t3, 1), (t4, 1)])
              t5 1).1 =
            columnFullResponse
              (placeSeq initialState [(t1, 1), (t2, 1), (t3, 1), (t4, 1)]).board) ∧
        ((t1 = t2 ∧ t2 = t3 ∧ t3 = t4) →
          (place_piece (placeSeq initialState [(t1, 1), (t2, 1), (t3, 1), (t4, 1)])
              t5 1).1.2 =
            (placeSeq initialState [(t1, 1), (t2, 1), (t3, 1), (t4, 1)]).board.render
              ++ teamStr t1 ++ " wins!\n") :=
  ⟨fun _ => rfl, by decide⟩

theorem place_success_spec {s : AppState} (team : Team) {column : Nat}
    (h1 : 1 ≤ column) (h2 : column ≤ 4)
    (hprog : s.board.outcome = Outcome.InProgress)
    (hempty : ∃ r : Fin 4, s.board.board (columnIndex column) r = none) :
    ∃ row : Fin 4,
      s.board.board (columnIndex column) row = none ∧
        (∀ r2 : Fin 4, row < r2 → s.board.board (columnIndex column) r2 ≠ none) ∧
        (place_piece s team column).2 =
          ⟨setCell s.board (columnIndex column) row (some team), s.rng⟩ ∧
        (place_piece s team column).1.1 = StatusCode.OK ∧
        (place_piece s team column).1.2 =
          successResponse (setCell s.board (columnIndex column) row (some team)) := by
  obtain ⟨re, hre⟩ := hempty
  obtain ⟨row, hlow⟩ := lowestEmptyRow_isSome hre
  obtain ⟨hnone, habove⟩ := lowestEmptyRow_spec hlow
  have hr : s.board.show_result = none := (show_result_eq_none_iff _).mpr hprog
  have hcol2 : ¬(column < 1 ∨ 4 < column) := by omega
  have hps := place_piece_success team hcol2 hr hlow
  rw [hps]
  exact ⟨row, hnone, habove, rfl, rfl, rfl⟩

theorem row_eq (m : Nat) (hm : m < 4) {b : Board} {c : Fin 4} {row : Fin 4}
    (hocc : occupiedBottomRows b c m)
    (hnone : b.board c row = none)
    (habove : ∀ r2 : Fin 4, row < r2 → b.board c r2 ≠ none) :
    row.val = 3 - m := by
  have h1 : row.val < 4 - m := by
    by_contra hc
    push_neg at hc
    exact (hocc row).mpr hc hnone
  by_contra hne
  have h2 : row.val < 3 - m := by omega
  have hr2lt : 3 - m < 4 := by omega
  have hlt : row < (⟨3 - m, hr2lt⟩ : Fin 4) := by
    rw [Fin.lt_def]
    exact h2
  have h3 := habove ⟨3 - m, hr2lt⟩ hlt
  have h4 := (hocc ⟨3 - m, hr2lt⟩).mp h3
  simp at h4
  omega

theorem occupiedBottomRows_step {b : Board} {c : Fin 4} {m : Nat} (hm : m < 4)
    (hocc : occupiedBottomRows b c m) {row : Fin 4} (hrow : row.val = 3 - m)
    (t : Team) :
    occupiedBottomRows (setCell b c row (some t)) c (m + 1) := by
  intro r
  by_cases he : r = row
  · subst he
    rw [setCell_same]
    simp only [ne_eq]
    constructor
    · intro _
      omega
    · intro _ hh
      exact Option.noConfusion hh
  · rw [setCell_other _ _ _ _ _ _ (fun hc => he hc.2)]
    have h5 := hocc r
    have hne : r.val ≠ 3 - m := by
      intro hh
      exact he (Fin.ext (hh.trans hrow.symm))
    constructor
    · intro h6
      have := h5.mp h6
      omega
    · intro h6
      apply h5.mpr
      omega

theorem gravity_aux (column : Nat) (h1 : 1 ≤ column) (h2 : column ≤ 4) :
    ∀ (ts : List Team) (s : AppState) (m : Nat),
      occupiedBottomRows s.board (columnIndex column) m →
      m + ts.length ≤ 4 →
      (∀ i, i < ts.length →
        (placeSeq s ((ts.take i).map fun t => (t, column))).board.outcome =
          Outcome.InProgress) →
      occupiedBottomRows (placeSeq s (ts.map fun t => (t, column))).board
        (columnIndex column) (m + ts.length) := by
  intro ts
  induction ts with
  | nil =>
    intro s m hocc _ _
    exact hocc
  | cons t rest ih =>
    intro s m hocc hle hprog
    have hm : m < 4 := by
      simp only [List.length_cons] at hle
      omega
    have hprog0 : s.board.outcome = Outcome.InProgress := by
      have hp := hprog 0 (by simp)
      simpa using hp
    have hempty : ∃ r : Fin 4, s.board.board (columnIndex column) r = none := by
      refine ⟨⟨3 - m, by omega⟩, ?_⟩
      by_contra hc
      have h4 := (hocc ⟨3 - m, by omega⟩).mp hc
      simp at h4
      omega
    obtain ⟨row, hnone, habove, hstate, hok, hresp⟩ :=
      place_success_spec t h1 h2 hprog0 hempty
    have hrow : row.val = 3 - m := row_eq m hm hocc hnone habove
    have hocc2 : occupiedBottomRows (place_piece s t column).2.board
        (columnIndex column) (m + 1) := by
      rw [hstate]
      exact occupiedBottomRows_step hm hocc hrow t
    have hlen : m + 1 + rest.length ≤ 4 := by
      simp only [List.length_cons] at hle
      omega
    have hprog2 : ∀ i, i < rest.length →
        (placeSeq (place_piece s t column).2
          ((rest.take i).map fun tt => (tt, column))).board.outcome =
            Outcome.InProgress := by
      intro i hi
      have hp := hprog (i + 1) (by simp only [List.length_cons]; omega)
      exact hp
    have hfinal := ih (place_piece s t column).2 (m + 1) hocc2 hlen hprog2
    have heq : m + 1 + rest.length = m + (rest.length + 1) := by omega
    rw [heq] at hfinal
    exact hfinal

/-- C1: on an in-progress board, a placement into an in-range column with
at least one empty cell succeeds: it fills exactly the lowest empty row of
that column (all rows below it already occupied, all other fifteen cells
and the generator unchanged) and returns the new render, suffixed with the
outcome when the move ended the game and plain otherwise.  Consequently —
gravity law — `k ≤ 4` placements into an initially empty column, with the
game still in progress before each move, occupy exactly the bottom `k`
rows of that column. -/
theorem gravity_place_spec :
    (∀ (s : AppState) (team : Team) (column : Nat), 1 ≤ column → column ≤ 4 →
      s.board.outcome = Outcome.InProgress →
      (∃ r : Fin 4, s.board.board (columnIndex column) r = none) →
      ∃ row : Fin 4,
        s.board.board (columnIndex column) row = none ∧
          (∀ r2 : Fin 4, row < r2 → s.board.board (columnIndex column) r2 ≠ none) ∧
          (place_piece s team column).1.1 = StatusCode.OK ∧
          (place_piece s team column).2.rng = s.rng ∧
          (place_piece s team column).2.board.board (columnIndex column) row =
            some team ∧
          (∀ c2 r2 : Fin 4, ¬(c2 = columnIndex column ∧ r2 = row) →
            (place_piece s team column).2.board.board c2 r2 =
              s.board.board c2 r2) ∧
          ((place_piece s team column).2.board.outcome = Outcome.InProgress →
            (place_piece s team column).1.2 =
              (place_piece s team column).2.board.render) ∧
          ((place_piece s team column).2.board.outcome ≠ Outcome.InProgress →
            ∃ rr, (place_piece s team column).2.board.show_result = some rr ∧
              (place_piece s team column).1.2 = rr)) ∧
      ∀ (s : AppState) (column : Nat) (ts : List Team), 1 ≤ column → column ≤ 4 →
        (∀ r : Fin 4, s.board.board (columnIndex column) r = none) →
        ts.length ≤ 4 →
        (∀ i, i < ts.length →
          (placeSeq s ((ts.take i).map fun t => (t, column))).board.outcome =
            Outcome.InProgress) →
        occupiedBottomRows (placeSeq s (ts.map fun t => (t, column))).board
          (columnIndex column) ts.length := by
  constructor
  · intro s team column h1 h2 hprog hempty
    obtain ⟨row, hnone, habove, hstate, hok, hresp⟩ :=
      place_success_spec team h1 h2 hprog hempty
    refine ⟨row, hnone, habove, hok, ?_, ?_, ?_, ?_, ?_⟩
    · rw [hstate]
    · rw [hstate]
      exact setCell_same _ _ _ _
    · intro c2 r2 hne
      rw [hstate]
      exact setCell_other _ _ _ _ _ _ hne
    · intro hp
      rw [hstate] at hp ⊢
      rw [hresp]
      exact (successResponse_spec _).1 hp
    · intro hp
      rw [hstate] at hp ⊢
      rw [hresp]
      exact (successResponse_spec _).2 hp
  · intro s column ts h1 h2 hemptycol hlen hprog
    have hocc0 : occupiedBottomRows s.board (columnIndex column) 0 := by
      intro r
      constructor
      · intro hh
        exact absurd (hemptycol r) hh
      · intro hh
        have := r.isLt
        omega
    have hfinal := gravity_aux column h1 h2 ts s 0 hocc0 (by omega) hprog
    rw [Nat.zero_add] at hfinal
    exact hfinal

theorem gravity_place_spec_witness :
    (place_piece initialState Team.Cookie 2).1.1 = StatusCode.OK ∧
      occupiedBottomRows
        (placeSeq initialState [(Team.Cookie, 2), (Team.Milk, 2)]).board
        (columnIndex 2) 2 := by
  constructor
  · obtain ⟨row, hnone, habove, hok, hrest⟩ :=
      gravity_place_spec.1 initialState Team.Cookie 2 (by decide) (by decide)
        (by decide) ⟨0, rfl⟩
    exact hok
  · exact gravity_place_spec.2 initialState 2 [Team.Cookie, Team.Milk]
      (by decide) (by decide) (fun _ => rfl) (by decide) (by decide)

theorem fifth_placement_amended_witness :
    (place_piece (placeSeq initialState
        [(Team.Cookie, 1), (Team.Milk, 1), (Team.Cookie, 1), (Team.Milk, 1)])
      Team.Cookie 1).1 =
      columnFullResponse (placeSeq initialState
        [(Team.Cookie, 1), (Team.Milk, 1), (Team.Cookie, 1), (Team.Milk, 1)]).board :=
  (fifth_placement_amended.2 Team.Cookie Team.Milk Team.Cookie Team.Milk
    Team.Cookie).2.2.2.2.2.2.1 (by decide)

end CCH24
